import Mathlib

/-!
Verification development for `richmond_lead_scraper.py`.

The Python source is shallowly embedded below.  Strings are Lean `String`s
(underlying `List Char`); the regular-expression scans of the source are
implemented as executable character scanners with exactly the Python `re`
semantics for the concrete patterns used (leftmost match, greedy classes
with backtracking); network requests (`requests.get`, `requests.post`) are
external collaborators, modelled as an oracle `String → Except String String`
mapping a URL to either the fetched page text (`.ok`) or to a raised
exception (`.error`).  The fuel arguments of the scanners equal the length
of the scanned text; every step of each scanner consumes at least one
character, so the fuel never runs out.
-/

namespace RichmondLeadScraper

/-! Section: Character classes of the Python regexes (all-ASCII, as in the source) -/

/-- Class `[A-Za-z0-9._%+-]` : local part of the email pattern (line 247). -/
def isLocalChar (c : Char) : Bool :=
  c.isAlphanum || c = '.' || c = '_' || c = '%' || c = '+' || c = '-'

/-- Class `[A-Za-z0-9.-]` : domain part of the email pattern (line 247). -/
def isDomainChar (c : Char) : Bool :=
  c.isAlphanum || c = '.' || c = '-'

/-- Python `\s` (ASCII range). -/
def isPySpace (c : Char) : Bool :=
  c = ' ' || c = '\t' || c = '\n' || c = '\r' || c = '\x0b' || c = '\x0c'

/-- Python `\w` (ASCII range), used for the `\b` boundaries. -/
def isWordChar (c : Char) : Bool :=
  c.isAlphanum || c = '_'

/-- Class `[-.\s]` : the separator class of the phone pattern (lines 274, 278). -/
def isSepChar (c : Char) : Bool :=
  c = '-' || c = '.' || isPySpace c

/-! Section: Small string utilities mirroring Python string methods -/

/-- Python `str.lower()` (ASCII). -/
def lowerS (s : String) : String := ⟨s.data.map Char.toLower⟩

/-- Python `str.replace(" ", "")`. -/
def removeSpacesS (s : String) : String := ⟨s.data.filter (fun c => c ≠ ' ')⟩

/-- Python `str.strip()`. -/
def pyStrip (s : String) : String :=
  ⟨((s.data.dropWhile isPySpace).reverse.dropWhile isPySpace).reverse⟩

/-- Does `hay` start with `needle`? (helper for substring containment). -/
def headMatch : List Char → List Char → Bool
  | [], _ => true
  | _ :: _, [] => false
  | n :: ns, h :: hs => n = h && headMatch ns hs

/-- Python `needle in hay` (substring containment) on char lists. -/
def containsSub (needle : List Char) : List Char → Bool
  | [] => needle.isEmpty
  | c :: t => headMatch needle (c :: t) || containsSub needle t

/-- Python `needle in hay` on strings. -/
def containsSubS (needle hay : String) : Bool := containsSub needle.data hay.data

/-- Python `str.split(".")`: split on every separator, keeping empty segments. -/
def splitOnChar (sep : Char) : List Char → List (List Char)
  | [] => [[]]
  | c :: t =>
    match splitOnChar sep t with
    | h :: hs => if c = sep then [] :: h :: hs else (c :: h) :: hs
    | [] => if c = sep then [[], []] else [[c]]

/-! Section: The email pattern `[A-Za-z0-9._%+-]+@[A-Za-z0-9.-]+\.[A-Za-z]{2,}`

`rightSplit` resolves the backtracking of the greedy `[A-Za-z0-9.-]+`
against `\.[A-Za-z]{2,}`: inside the maximal domain-char run `Q` it finds
the rightmost `'.'` followed by at least two letters (the `+` gives back
characters one at a time starting from its longest extent, so the split
the engine settles on is the rightmost feasible one), with the `{2,}`
then greedily taking the maximal letter run. -/

/-- Split `Q` as `A ++ '.' :: (T ++ rest)` with `T` the maximal letter run
after the rightmost feasible `'.'` and `T.length ≥ 2`. -/
def rightSplit : List Char → Option (List Char × List Char × List Char)
  | [] => none
  | c :: r =>
    match rightSplit r with
    | some (A, T, rest) => some (c :: A, T, rest)
    | none =>
      if c = '.' then
        let T := r.takeWhile Char.isAlpha
        if 2 ≤ T.length then some ([], T, r.dropWhile Char.isAlpha) else none
      else none

/-- Try to match the email pattern starting exactly at the head of `l`;
returns the matched text and the remaining suffix. -/
def matchEmailAt (l : List Char) : Option (List Char × List Char) :=
  let P := l.takeWhile isLocalChar
  match l.dropWhile isLocalChar with
  | '@' :: l2 =>
    if P.isEmpty then none
    else
      let Q := l2.takeWhile isDomainChar
      let rest2 := l2.dropWhile isDomainChar
      match rightSplit Q with
      | some (A, T, leftover) =>
        -- the `[A-Za-z0-9.-]+` before `\.` must be nonempty
        if A.isEmpty then none
        else some (P ++ '@' :: (A ++ '.' :: T), leftover ++ rest2)
      | none => none
  | _ => none

/-- Model of `re.findall` of the email pattern: leftmost non-overlapping matches,
scanning left to right.  Fuel equals the text length; a successful match
consumes at least five characters, a failure advances one, so the fuel is
never exhausted. -/
def findallEmailsGo : Nat → List Char → List (List Char)
  | 0, _ => []
  | _, [] => []
  | fuel + 1, c :: t =>
    match matchEmailAt (c :: t) with
    | some (m, rest) => m :: findallEmailsGo fuel rest
    | none => findallEmailsGo fuel t

/-- All email-pattern matches of `body`, in order of occurrence (line 247). -/
def findallEmails (body : String) : List String :=
  (findallEmailsGo body.data.length body.data).map (fun m => (⟨m⟩ : String))

/-! Section: The denylists (lines 26-141 of the source) -/

/-- Set `AVOID_EMAILS` (a Python set; only membership is used). -/
def AVOID_EMAILS : List String :=
  [ "johndoe@example.com", "janedoe@example.com", "yourname@example.com",
    "info@example.com", "contact@example.com", "hello@example.com",
    "admin@example.com", "support@example.com", "user@example.com",
    "person@example.com", "firstname.lastname@example.com", "name@company.com",
    "me@example.com", "team@example.com", "demo@example.com",
    "test@example.com", "sample@example.com", "email@example.com",
    "myemail@example.com", "user123@example.com", "contactus@example.com",
    "info@company.com", "hello@brand.com", "support@service.com",
    "admin@business.com", "sales@example.com", "marketing@example.com",
    "office@example.com", "customerservice@example.com", "feedback@example.com",
    "help@example.com", "team@company.com", "inquiries@example.com",
    "press@example.com", "hr@example.com", "careers@example.com",
    "owner@example.com", "staff@example.com", "account@example.com",
    "service@example.com", "billing@example.com", "media@example.com",
    "info@domain.com", "contact@domain.com", "support@domain.com",
    "hello@domain.com", "demo@domain.com", "test@domain.com",
    "name@domain.com", "user@domain.com", "email@domain.com",
    "feedback@domain.com", "info@website.com", "contact@website.com",
    "support@website.com", "hello@website.com", "sales@website.com",
    "name@website.com", "user@website.com", "myname@website.com",
    "yourname@website.com", "example@website.com", "test@website.com",
    "jane.doe@website.com", "john.doe@website.com", "firstname@website.com",
    "lastname@website.com", "contactme@website.com", "sayhello@website.com",
    "reachout@website.com", "contactform@website.com", "info@mysite.com",
    "admin@mysite.com", "help@mysite.com", "demo@mysite.com",
    "user@mysite.com", "support@mysite.com", "hello@mysite.com",
    "info@email.com", "contact@email.com", "example@email.com",
    "user@email.com", "name@email.com", "test@email.com",
    "info@sample.com", "contact@sample.com", "user@sample.com",
    "hello@sample.com", "name@sample.com", "demo@sample.com",
    "contact@demo.com", "info@demo.com", "user@demo.com",
    "hello@demo.com", "name@demo.com", "test@demo.com",
    "someone@example.com", "you@example.com", "your.email@example.com",
    "contactperson@example.com" ]

/-- List `BAD_EMAIL_SUBSTRINGS` (lines 130-141). -/
def BAD_EMAIL_SUBSTRINGS : List String :=
  [ "example.com", "wixpress", "sentry", "schema.org", "domain.com",
    "website.com", "mysite.com", "email.com", "sample.com", "demo.com" ]

/-- The spec's `is_placeholder_email` (Normalizer): the two rejection tests
inlined at lines 250-253 of the source, as a single predicate. -/
def is_placeholder_email (e : String) : Bool :=
  AVOID_EMAILS.contains (lowerS e) ||
    BAD_EMAIL_SUBSTRINGS.any (fun b => containsSubS b (lowerS e))

/-- The candidate loop of `find_email_on_website` (lines 248-254): skip a
candidate whose lowercase form is in `AVOID_EMAILS` or contains a bad
substring, return the first survivor in its original spelling, and return
the empty string when none survives. -/
def emailLoop : List String → String
  | [] => ""
  | e :: rest =>
    if AVOID_EMAILS.contains (lowerS e) then emailLoop rest
    else if BAD_EMAIL_SUBSTRINGS.any (fun b => containsSubS b (lowerS e)) then
      emailLoop rest
    else e

/-- Email extraction from fetched page text (lines 247-254). -/
def scanEmailsInText (body : String) : String := emailLoop (findallEmails body)

/-! Section: Phone normalization (lines 217-236) -/

/-- Function `normalize_phone_for_sms`: strip non-digits; 10 digits get a `+1`
prefix, 11 digits starting with `1` get a `+`; anything else is returned
unchanged. -/
def normalize_phone_for_sms (raw_phone : String) : String :=
  if raw_phone = "" then ""
  else
    let digits : List Char := raw_phone.data.filter Char.isDigit
    if digits.length = 10 then "+1" ++ (⟨digits⟩ : String)
    else if digits.length = 11 ∧ digits.head? = some '1' then
      "+" ++ (⟨digits⟩ : String)
    else raw_phone

/-! Section: HTML tag stripping and whitespace collapsing (lines 265-266)

`re.sub(r"<[^>]*>", " ", text)` replaces each `<`…first following `>` span
with a space (a `<` with no later `>` never matches and is kept), and
`re.sub(r"\s+", " ", text)` collapses each maximal whitespace run into a
single space. -/

/-- Drop up to and including the first `'>'`; `none` when there is none. -/
def splitAtGt : List Char → Option (List Char)
  | [] => none
  | c :: t => if c = '>' then some t else splitAtGt t

/-- One pass of `re.sub(r"<[^>]*>", " ", ·)`.  Fuel equals the text length. -/
def stripTagsGo : Nat → List Char → List Char
  | 0, l => l
  | _, [] => []
  | fuel + 1, c :: t =>
    if c = '<' then
      match splitAtGt t with
      | some rest => ' ' :: stripTagsGo fuel rest
      | none => '<' :: stripTagsGo fuel t
    else c :: stripTagsGo fuel t

/-- Model of `re.sub(r"<[^>]*>", " ", body)` on the raw page text. -/
def stripTags (body : String) : List Char := stripTagsGo body.data.length body.data

/-- One pass of `re.sub(r"\s+", " ", ·)`.  Fuel equals the text length. -/
def collapseWsGo : Nat → List Char → List Char
  | 0, l => l
  | _, [] => []
  | fuel + 1, c :: t =>
    if isPySpace c then ' ' :: collapseWsGo fuel (t.dropWhile isPySpace)
    else c :: collapseWsGo fuel t

/-- Model of `re.sub(r"\s+", " ", ·)`. -/
def collapseWs (l : List Char) : List Char := collapseWsGo l.length l

/-! Section: The name pattern `\b([A-Z][a-z]+ [A-Z][a-z]+)\b` (line 272)

Greedy `[a-z]+` runs take a maximal lowercase run; the space is literal;
the trailing `\b` demands a non-word character (or the end) after the
maximal second run, and no backtracking can repair a failure there, so
matching at a position is deterministic. -/

/-- Try the name pattern exactly at the head of `l` (the leading `\b` is
checked by the caller). -/
def matchNameHere : List Char → Option (List Char)
  | [] => none
  | c1 :: r =>
    if c1.isUpper then
      let r1 := r.takeWhile Char.isLower
      if r1.isEmpty then none
      else
        match r.dropWhile Char.isLower with
        | ' ' :: c2 :: r2 =>
          if c2.isUpper then
            let r2a := r2.takeWhile Char.isLower
            if r2a.isEmpty then none
            else
              match r2.dropWhile Char.isLower with
              | [] => some (c1 :: r1 ++ ' ' :: c2 :: r2a)
              | d :: _ =>
                if isWordChar d then none else some (c1 :: r1 ++ ' ' :: c2 :: r2a)
          else none
        | _ => none
    else none

/-- Model of `re.search` of the name pattern: leftmost match, tracking whether the
previous character is a word character for the leading `\b`. -/
def searchNameGo : Bool → List Char → Option (List Char)
  | _, [] => none
  | prevWord, c :: t =>
    match (if prevWord then none else matchNameHere (c :: t)) with
    | some m => some m
    | none => searchNameGo (isWordChar c) t

/-- Model of `re.search(r"\b([A-Z][a-z]+ [A-Z][a-z]+)\b", seg)`, as `group(1)`. -/
def searchName (seg : String) : Option String :=
  (searchNameGo false seg.data).map (fun m => (⟨m⟩ : String))

/-! Section: The phone pattern `\(?\d{3}\)?[-.\s]?\d{3}[-.\s]?\d{4}` (lines 274, 278)

The optional pieces are over classes disjoint from `\d`, so greedy
matching with backtracking is equivalent to consuming each optional piece
exactly when its class matches. -/

/-- Match exactly `n` digits, returning them and the rest. -/
def matchDigits : Nat → List Char → Option (List Char × List Char)
  | 0, l => some ([], l)
  | _ + 1, [] => none
  | n + 1, c :: t =>
    if c.isDigit then (matchDigits n t).map (fun dr => (c :: dr.1, dr.2)) else none

/-- Try the phone pattern exactly at the head of `l`. -/
def matchPhoneHere (l : List Char) : Option (List Char) :=
  let (pOpen, l1) :=
    match l with
    | '(' :: t => (['('], t)
    | _ => (([] : List Char), l)
  match matchDigits 3 l1 with
  | none => none
  | some (d1, l2) =>
    let (pClose, l3) :=
      match l2 with
      | ')' :: t => ([')'], t)
      | _ => (([] : List Char), l2)
    let (s1, l4) :=
      match l3 with
      | c :: t => if isSepChar c then ([c], t) else (([] : List Char), l3)
      | [] => (([] : List Char), l3)
    match matchDigits 3 l4 with
    | none => none
    | some (d2, l5) =>
      let (s2, l6) :=
        match l5 with
        | c :: t => if isSepChar c then ([c], t) else (([] : List Char), l5)
        | [] => (([] : List Char), l5)
      match matchDigits 4 l6 with
      | none => none
      | some (d3, _) => some (pOpen ++ d1 ++ pClose ++ s1 ++ d2 ++ s2 ++ d3)

/-- Model of `re.search` of the phone pattern: leftmost match. -/
def searchPhoneGo : List Char → Option (List Char)
  | [] => none
  | c :: t =>
    match matchPhoneHere (c :: t) with
    | some m => some m
    | none => searchPhoneGo t

/-- Model of `re.search(r"\(?\d{3}\)?[-.\s]?\d{3}[-.\s]?\d{4}", txt)`, as `group(0)`. -/
def searchPhone (l : List Char) : Option String :=
  (searchPhoneGo l).map (fun m => (⟨m⟩ : String))

/-! Section: Owner-name / phone extraction from page text (lines 260-283) -/

/-- The keyword list of line 268. -/
def owner_keywords : List String :=
  ["owner", "ceo", "founder", "manager", "director", "president"]

/-- Test `any(k in line.lower() for k in owner_keywords)` (line 271). -/
def hasOwnerKeyword (seg : String) : Bool :=
  owner_keywords.any (fun k => containsSubS k (lowerS seg))

/-- Tag-stripped, whitespace-collapsed text split on `'.'` (lines 265-270). -/
def ownerSegments (body : String) : List String :=
  (splitOnChar '.' (collapseWs (stripTags body))).map (fun l => (⟨l⟩ : String))

/-- The segment loop of lines 270-276: for each segment containing an owner
keyword, return the first name-pattern match in it together with the phone
found in the whole text; if a keyword segment has no name match the loop
continues with the next segment; after the loop the phone is returned with
an empty owner name (lines 278-280). -/
def ownerLoop (phone : String) : List String → String × String
  | [] => ("", phone)
  | seg :: rest =>
    if hasOwnerKeyword seg then
      match searchName seg with
      | some nm => (nm, phone)
      | none => ownerLoop phone rest
    else ownerLoop phone rest

/-- Owner-name and phone extraction from the fetched page text
(the body of the `try` block, lines 264-280). -/
def ownerPhoneInText (body : String) : String × String :=
  ownerLoop ((searchPhone (collapseWs (stripTags body))).getD "") (ownerSegments body)

/-! Section: The fetch-wrapped extraction functions (lines 242-283)

`fetch` is the external `requests.get(url, timeout=6)` collaborator: `.ok`
is the response text, `.error` is any raised exception.  Each function
returns its result together with the log entries it appends. -/

/-- Function `find_email_on_website` (lines 242-257). -/
def find_email_on_website (fetch : String → Except String String)
    (url : String) : String × List String :=
  if url = "" then ("", [])
  else
    match fetch url with
    | .ok body => (scanEmailsInText body, [])
    | .error exc => ("", ["Error scanning " ++ url ++ " for email: " ++ exc])

/-- Function `find_owner_name_and_phone` (lines 260-283). -/
def find_owner_name_and_phone (fetch : String → Except String String)
    (url : String) : (String × String) × List String :=
  if url = "" then (("", ""), [])
  else
    match fetch url with
    | .ok body => (ownerPhoneInText body, [])
    | .error exc =>
      (("", ""), ["Error parsing " ++ url ++ " for owner/phone: " ++ exc])

/-! Section: Data model -/

/-- A business listing as assembled from the place-search collaborator
(lines 201-208): absent website / phone are empty strings. -/
structure Biz where
  name : String
  website : String
  phone : String
  category : String
deriving DecidableEq

/-- The `contact` dict built at lines 397-403. -/
structure Contact where
  name : String
  phone : String
  website : String
  email : String
  owner_name : String
deriving DecidableEq

/-- The Brevo upload payload (lines 312-328): the `attributes` fields are
inlined, `sms` is present only when the normalized phone is nonempty. -/
structure Payload where
  email : String
  FIRSTNAME : String
  COMPANY : String
  PHONE : String
  WEBSITE : String
  sms : Option String
  listIds : List Nat
deriving DecidableEq

/-- Function `add_to_brevo` (lines 289-330): builds the payload sent to the CRM. -/
def add_to_brevo (contact : Contact) (has_email : Bool) : Payload :=
  let raw_phone := pyStrip contact.phone
  let sms_phone := normalize_phone_for_sms raw_phone
  let firstname :=
    if contact.owner_name ≠ "" then contact.owner_name
    else if contact.name ≠ "" then contact.name
    else ""
  { email :=
      if has_email then contact.email
      else lowerS (removeSpacesS contact.name) ++ "@placeholder.com"
  , FIRSTNAME := firstname
  , COMPANY := contact.name
  , PHONE := raw_phone
  , WEBSITE := contact.website
  , sms := if sms_phone ≠ "" then some sms_phone else none
  , listIds := [if has_email then 3 else 5] }

/-- The contact built for one business (lines 389-403): email from the
website scan, owner/phone from the owner scan, `final_phone` preferring the
site phone over the provider phone. -/
def contactOf (fetchE fetchP : String → Except String String) (b : Biz) : Contact :=
  let email := (find_email_on_website fetchE b.website).1
  let op := (find_owner_name_and_phone fetchP b.website).1
  { name := b.name
  , phone := if op.2 ≠ "" then op.2 else b.phone
  , website := b.website
  , email := email
  , owner_name := op.1 }

/-- One processed business in the run: the contact built for it, the
`seen_emails` set before and after its step, and the upload made for it
(`none` when it was skipped as a duplicate). -/
structure StepTrace where
  biz : Biz
  contact : Contact
  seenBefore : List String
  seenAfter : List String
  upload : Option Payload
deriving DecidableEq

/-- The processing loop of `run_scraper_process` (lines 384-438): a record
with an email is skipped when the email is already in `seen_emails`,
otherwise uploaded to list 3 and its email added to the set; a record
without an email is always uploaded to list 5 and the set is untouched.
The time-based early exit only truncates the processed list and is not
modelled. -/
def runTrace (fetchE fetchP : String → Except String String) :
    List Biz → List String → List StepTrace
  | [], _ => []
  | b :: rest, seen =>
    let c := contactOf fetchE fetchP b
    if c.email ≠ "" then
      if c.email ∈ seen then
        ⟨b, c, seen, seen, none⟩ :: runTrace fetchE fetchP rest seen
      else
        ⟨b, c, seen, c.email :: seen, some (add_to_brevo c true)⟩ ::
          runTrace fetchE fetchP rest (c.email :: seen)
    else
      ⟨b, c, seen, seen, some (add_to_brevo c false)⟩ ::
        runTrace fetchE fetchP rest seen

/-- The business-gathering dedup of lines 368-372: keep the first listing
for each `(name, website)` pair. -/
def gatherGo : List Biz → List (String × String) → List Biz
  | [], _ => []
  | b :: rest, keys =>
    if (b.name, b.website) ∈ keys then gatherGo rest keys
    else b :: gatherGo rest ((b.name, b.website) :: keys)

/-- Function `run_scraper_process` (lines 341-453) on the listings returned by the
search collaborator: gather unique businesses, then process each with a
fresh empty `seen_emails` set.  The Google fetching, pacing delays,
timeout caps and the Excel export are external or time-based and only
bound the input list. -/
def run_scraper_process (fetchE fetchP : String → Except String String)
    (collab : List Biz) : List StepTrace :=
  runTrace fetchE fetchP (gatherGo collab []) []

/-! Section: Spec-side definitions used to state the claims -/

/-- The spec's dedup key (§3, §4.4): lowercased email when present,
otherwise `business_name + "|" + phone`. -/
def dedupKey (c : Contact) : String :=
  if c.email ≠ "" then lowerS c.email else c.name ++ "|" ++ c.phone

/-- Dedup keys of the records actually uploaded in a trace. -/
def dedupKeysOf (tr : List StepTrace) : List String :=
  tr.filterMap (fun t => if t.upload.isSome then some (dedupKey t.contact) else none)

/-- Emails of the uploaded email-bearing records of a trace. -/
def uploadedEmails (tr : List StepTrace) : List String :=
  tr.filterMap (fun t =>
    match t.upload with
    | some _ => if t.contact.email = "" then none else some t.contact.email
    | none => none)

/-- Owner extraction as the spec describes it (§4.2): only the FIRST
keyword-containing segment is searched for a name pattern; if that segment
has no match the owner name is absent.  Stated from the spec's words, to be
compared against the code's `ownerLoop`. -/
def specOwnerExtract (body : String) : String :=
  match (ownerSegments body).find? (fun s => hasOwnerKeyword s) with
  | some seg => (searchName seg).getD ""
  | none => ""

/-! Section: Concrete fixtures for counterexamples and witnesses -/

/-- A fetch oracle: two pages carrying case-variant emails, everything else
failing with a connection error. -/
def cxFetch : String → Except String String :=
  fun u =>
    if u = "u1" then Except.ok "mail X@e.com here"
    else if u = "u2" then Except.ok "mail x@e.com here"
    else Except.error "connection refused"

/-- Listing with a page carrying the email `X@e.com`. -/
def cxB1 : Biz := ⟨"Acme", "u1", "555", "HVAC"⟩

/-- Listing with the same name and a page carrying `x@e.com`. -/
def cxB2 : Biz := ⟨"Acme", "u2", "555", "HVAC"⟩

/-- Listing whose website fetch fails (no email found). -/
def cxB3 : Biz := ⟨"Blue", "u3", "555", "HVAC"⟩

/-- Another listing with the same name and phone, distinct website. -/
def cxB4 : Biz := ⟨"Blue", "u4", "555", "HVAC"⟩

/-! Section: Helper lemmas -/

/-- The candidate loop keeps exactly the first candidate passing the
placeholder filter (or `""` when none passes). -/
theorem emailLoop_eq_filter (cands : List String) :
    emailLoop cands =
      ((cands.filter (fun e => !is_placeholder_email e)).head?.getD "") := by
  induction cands with
  | nil => rfl
  | cons e rest ih =>
    simp only [emailLoop, List.filter_cons]
    cases h1 : AVOID_EMAILS.contains (lowerS e) with
    | true =>
      have hp : (!is_placeholder_email e) = false := by
        rw [is_placeholder_email, h1, Bool.true_or, Bool.not_true]
      rw [if_pos rfl, hp, if_neg Bool.false_ne_true]
      exact ih
    | false =>
      cases h2 :
          BAD_EMAIL_SUBSTRINGS.any (fun b => containsSubS b (lowerS e)) with
      | true =>
        have hp : (!is_placeholder_email e) = false := by
          rw [is_placeholder_email, h1, h2, Bool.false_or, Bool.not_true]
        rw [if_neg Bool.false_ne_true, if_pos rfl, hp,
          if_neg Bool.false_ne_true]
        exact ih
      | false =>
        have hp : (!is_placeholder_email e) = true := by
          rw [is_placeholder_email, h1, h2, Bool.false_or, Bool.not_false]
        rw [if_neg Bool.false_ne_true, if_neg Bool.false_ne_true, hp,
          if_pos rfl, List.head?_cons, Option.getD_some]

/-- The owner segment loop returns the first name match among the
keyword-bearing segments, paired with the phone computed from the whole
text. -/
theorem ownerLoop_eq_filterMap (phone : String) (segs : List String) :
    ownerLoop phone segs =
      (((segs.filterMap
          (fun s => if hasOwnerKeyword s then searchName s else none)).head?.getD ""),
        phone) := by
  induction segs with
  | nil => rfl
  | cons s rest ih =>
    by_cases hk : hasOwnerKeyword s = true
    · cases hnm : searchName s with
      | some nm => simp [ownerLoop, hk, hnm, List.filterMap_cons]
      | none => simp [ownerLoop, hk, hnm, List.filterMap_cons, ih]
    · simp [ownerLoop, hk, List.filterMap_cons, ih]

/-- Each processed business contributes exactly one trace entry. -/
theorem runTrace_map_biz (fetchE fetchP : String → Except String String) :
    ∀ (bizs : List Biz) (seen : List String),
      (runTrace fetchE fetchP bizs seen).map (fun t => t.biz) = bizs := by
  intro bizs
  induction bizs with
  | nil => intro seen; rfl
  | cons b rest ih =>
    intro seen
    simp only [runTrace]
    by_cases h1 : (contactOf fetchE fetchP b).email ≠ ""
    · rw [if_pos h1]
      by_cases h2 : (contactOf fetchE fetchP b).email ∈ seen
      · rw [if_pos h2]; simp [ih]
      · rw [if_neg h2]; simp [ih]
    · rw [if_neg h1]; simp [ih]

/-- Per-entry invariant of the processing loop: the contact is the one
built for the entry's business; an entry is skipped exactly when its email
is nonempty and already seen; a fresh email is uploaded to Brevo with
`has_email := true` and recorded; an email-less record is always uploaded
with `has_email := false` and leaves the seen set unchanged. -/
theorem runTrace_mem (fetchE fetchP : String → Except String String) :
    ∀ (bizs : List Biz) (seen : List String) (t : StepTrace),
      t ∈ runTrace fetchE fetchP bizs seen →
      t.contact = contactOf fetchE fetchP t.biz ∧
      (t.upload = none ↔ (t.contact.email ≠ "" ∧ t.contact.email ∈ t.seenBefore)) ∧
      (t.contact.email ≠ "" → t.contact.email ∉ t.seenBefore →
        t.upload = some (add_to_brevo t.contact true) ∧
        t.seenAfter = t.contact.email :: t.seenBefore) ∧
      (t.contact.email = "" →
        t.upload = some (add_to_brevo t.contact false) ∧
        t.seenAfter = t.seenBefore) := by
  intro bizs
  induction bizs with
  | nil => intro seen t ht; exact absurd ht (List.not_mem_nil t)
  | cons b rest ih =>
    intro seen t ht
    simp only [runTrace] at ht
    by_cases h1 : (contactOf fetchE fetchP b).email ≠ ""
    · rw [if_pos h1] at ht
      by_cases h2 : (contactOf fetchE fetchP b).email ∈ seen
      · rw [if_pos h2] at ht
        rcases List.mem_cons.mp ht with rfl | htl
        · refine ⟨rfl, iff_of_true rfl ⟨h1, h2⟩, fun _ hnm => absurd h2 hnm,
            fun he => absurd he h1⟩
        · exact ih seen t htl
      · rw [if_neg h2] at ht
        rcases List.mem_cons.mp ht with rfl | htl
        · exact ⟨rfl, iff_of_false (by simp) (fun hc => h2 hc.2),
            fun _ _ => ⟨rfl, rfl⟩, fun he => absurd he h1⟩
        · exact ih _ t htl
    · rw [if_neg h1] at ht
      rcases List.mem_cons.mp ht with rfl | htl
      · have he : (contactOf fetchE fetchP b).email = "" := not_not.mp h1
        exact ⟨rfl, iff_of_false (by simp) (fun hc => h1 hc.1),
          fun hne _ => absurd he hne, fun _ => ⟨rfl, rfl⟩⟩
      · exact ih seen t htl

/-- Emails of uploaded email-bearing records are pairwise distinct and
disjoint from the initial seen set. -/
theorem runTrace_emails_nodup (fetchE fetchP : String → Except String String) :
    ∀ (bizs : List Biz) (seen : List String),
      (uploadedEmails (runTrace fetchE fetchP bizs seen)).Nodup ∧
      ∀ e ∈ uploadedEmails (runTrace fetchE fetchP bizs seen), e ∉ seen := by
  intro bizs
  induction bizs with
  | nil =>
    intro seen
    exact ⟨List.nodup_nil, fun e he => absurd he (List.not_mem_nil e)⟩
  | cons b rest ih =>
    intro seen
    simp only [runTrace]
    by_cases h1 : (contactOf fetchE fetchP b).email ≠ ""
    · by_cases h2 : (contactOf fetchE fetchP b).email ∈ seen
      · rw [if_pos h1, if_pos h2]
        simpa [uploadedEmails, List.filterMap_cons] using ih seen
      · rw [if_pos h1, if_neg h2]
        have hrec := ih ((contactOf fetchE fetchP b).email :: seen)
        have hview :
            uploadedEmails
              (⟨b, contactOf fetchE fetchP b, seen,
                  (contactOf fetchE fetchP b).email :: seen,
                  some (add_to_brevo (contactOf fetchE fetchP b) true)⟩ ::
                runTrace fetchE fetchP rest ((contactOf fetchE fetchP b).email :: seen)) =
              (contactOf fetchE fetchP b).email ::
                uploadedEmails
                  (runTrace fetchE fetchP rest ((contactOf fetchE fetchP b).email :: seen)) := by
          simp [uploadedEmails, List.filterMap_cons, h1]
        rw [hview]
        constructor
        · refine List.nodup_cons.mpr ⟨fun hmem => ?_, hrec.1⟩
          exact hrec.2 _ hmem (List.mem_cons_self _ _)
        · intro e he
          rcases List.mem_cons.mp he with rfl | htl
          · exact h2
          · exact fun hmem => hrec.2 e htl (List.mem_cons_of_mem _ hmem)
    · rw [if_neg h1]
      have he : (contactOf fetchE fetchP b).email = "" := not_not.mp h1
      simpa [uploadedEmails, List.filterMap_cons, he] using ih seen

/-- Collapsing the nested FIRSTNAME fallback: `a or b or ""` equals
`a or b` for strings. -/
theorem fallback_collapse (o n : String) :
    (if o ≠ "" then o else if n ≠ "" then n else "") = if o ≠ "" then o else n := by
  by_cases ho : o ≠ ""
  · simp [ho]
  · by_cases hn : n = "" <;> simp [ho, hn]

/-! Section: C1 -/

/-- C1, counterexample.  Claim: "For every run, no two ContactRecords
uploaded during that run share a dedup key" (email lowercased when
present, else `business_name|phone`).  In this four-listing run (all four
survive the `(name, website)` gathering dedup) all four records are
uploaded, the first two share the dedup key `x@e.com` (the code compares
emails case-sensitively, so `X@e.com` and `x@e.com` are both uploaded) and
the last two share the key `Blue|555` (records without an email are never
dedup-checked). -/
theorem c1_counterexample :
    dedupKeysOf (run_scraper_process cxFetch cxFetch [cxB1, cxB2, cxB3, cxB4]) =
      ["x@e.com", "x@e.com", "Blue|555", "Blue|555"] ∧
    ¬ (dedupKeysOf
        (run_scraper_process cxFetch cxFetch [cxB1, cxB2, cxB3, cxB4])).Nodup := by
  constructor
  · decide
  · decide

/-- C1, amended.  Within one run, no two uploaded ContactRecords that carry
a (non-empty) extracted email share that exact email string: `seen_emails`
dedups the raw extracted email, case-sensitively, and only for
email-bearing records. -/
theorem c1_uploaded_emails_nodup (fetchE fetchP : String → Except String String)
    (collab : List Biz) :
    (uploadedEmails (run_scraper_process fetchE fetchP collab)).Nodup :=
  (runTrace_emails_nodup fetchE fetchP (gatherGo collab []) []).1

/-! Section: C2 -/

/-- C2.  Every processed business yields exactly one trace entry; an entry
is skipped (no upload) exactly when its record's email is nonempty and
already seen; otherwise exactly one upload is made, to list 3 for an
email-bearing record and to list 5 for a record without an email. -/
theorem c2_one_upload_per_record (fetchE fetchP : String → Except String String)
    (bizs : List Biz) (seen : List String) :
    ((runTrace fetchE fetchP bizs seen).map (fun t => t.biz) = bizs) ∧
    (∀ t ∈ runTrace fetchE fetchP bizs seen,
      (t.upload = none ↔ (t.contact.email ≠ "" ∧ t.contact.email ∈ t.seenBefore)) ∧
      (t.contact.email ≠ "" → t.contact.email ∉ t.seenBefore →
        t.upload = some (add_to_brevo t.contact true) ∧
        (add_to_brevo t.contact true).listIds = [3]) ∧
      (t.contact.email = "" →
        t.upload = some (add_to_brevo t.contact false) ∧
        (add_to_brevo t.contact false).listIds = [5])) := by
  refine ⟨runTrace_map_biz fetchE fetchP bizs seen, fun t ht => ?_⟩
  have h := runTrace_mem fetchE fetchP bizs seen t ht
  exact ⟨h.2.1,
    fun hne hnm => ⟨(h.2.2.1 hne hnm).1, rfl⟩,
    fun he => ⟨(h.2.2.2 he).1, rfl⟩⟩

/-- C2 witness: the single no-email listing `cxB3` is uploaded exactly once,
to list 5. -/
theorem c2_witness :
    ((runTrace cxFetch cxFetch [cxB3] []).headD
        ⟨cxB3, contactOf cxFetch cxFetch cxB3, [], [], none⟩).upload =
      some (add_to_brevo
        ((runTrace cxFetch cxFetch [cxB3] []).headD
          ⟨cxB3, contactOf cxFetch cxFetch cxB3, [], [], none⟩).contact false) ∧
    (add_to_brevo
        ((runTrace cxFetch cxFetch [cxB3] []).headD
          ⟨cxB3, contactOf cxFetch cxFetch cxB3, [], [], none⟩).contact
        false).listIds = [5] := by
  have h := (c2_one_upload_per_record cxFetch cxFetch [cxB3] []).2
    ((runTrace cxFetch cxFetch [cxB3] []).headD
      ⟨cxB3, contactOf cxFetch cxFetch cxB3, [], [], none⟩)
    (by decide)
  exact h.2.2 (by decide)

/-! Section: C3 -/

/-- C3.  Record building: the record's phone is the extracted site phone
when nonempty, else the listing's provider phone (and hence `""` when both
are empty); the record keeps the raw extracted owner name, and the uploaded
FIRSTNAME falls back from the extracted owner name to the listing's
business name; for a listing with no website extraction yields nothing, so
the phone equals the listing's phone, the email is empty and the FIRSTNAME
is the listing's name. -/
theorem c3_record_builder (fetchE fetchP : String → Except String String) (b : Biz) :
    ((contactOf fetchE fetchP b).phone =
      (if (find_owner_name_and_phone fetchP b.website).1.2 ≠ ""
       then (find_owner_name_and_phone fetchP b.website).1.2 else b.phone)) ∧
    ((contactOf fetchE fetchP b).owner_name =
      (find_owner_name_and_phone fetchP b.website).1.1) ∧
    (∀ he : Bool, (add_to_brevo (contactOf fetchE fetchP b) he).FIRSTNAME =
      (if (find_owner_name_and_phone fetchP b.website).1.1 ≠ ""
       then (find_owner_name_and_phone fetchP b.website).1.1 else b.name)) ∧
    (b.website = "" →
      (contactOf fetchE fetchP b).phone = b.phone ∧
      (contactOf fetchE fetchP b).email = "" ∧
      (contactOf fetchE fetchP b).owner_name = "" ∧
      ∀ he : Bool, (add_to_brevo (contactOf fetchE fetchP b) he).FIRSTNAME = b.name) := by
  refine ⟨rfl, rfl, fun he => ?_, fun hw => ?_⟩
  · show (if (contactOf fetchE fetchP b).owner_name ≠ ""
        then (contactOf fetchE fetchP b).owner_name
        else if (contactOf fetchE fetchP b).name ≠ ""
          then (contactOf fetchE fetchP b).name else "") = _
    exact fallback_collapse _ _
  · have hop : (find_owner_name_and_phone fetchP b.website).1 = ("", "") := by
      rw [hw]; rfl
    have hem : (find_email_on_website fetchE b.website).1 = "" := by
      rw [hw]; rfl
    refine ⟨?_, ?_, ?_, fun he => ?_⟩
    · show (if (find_owner_name_and_phone fetchP b.website).1.2 ≠ ""
          then (find_owner_name_and_phone fetchP b.website).1.2 else b.phone) = b.phone
      rw [hop]; simp
    · exact hem
    · show (find_owner_name_and_phone fetchP b.website).1.1 = ""
      rw [hop]
    · show (if (contactOf fetchE fetchP b).owner_name ≠ ""
          then (contactOf fetchE fetchP b).owner_name
          else if (contactOf fetchE fetchP b).name ≠ ""
            then (contactOf fetchE fetchP b).name else "") = b.name
      rw [fallback_collapse]
      show (if (find_owner_name_and_phone fetchP b.website).1.1 ≠ ""
          then (find_owner_name_and_phone fetchP b.website).1.1 else b.name) = b.name
      rw [hop]; simp

/-- C3 witness: a concrete listing with no website keeps the provider phone
and falls back to the business name. -/
theorem c3_witness :
    (contactOf cxFetch cxFetch ⟨"Joes Cafe", "", "804-555-0000", "Cafes"⟩).phone =
      "804-555-0000" ∧
    (add_to_brevo
        (contactOf cxFetch cxFetch ⟨"Joes Cafe", "", "804-555-0000", "Cafes"⟩)
        false).FIRSTNAME = "Joes Cafe" := by
  have h := (c3_record_builder cxFetch cxFetch
    ⟨"Joes Cafe", "", "804-555-0000", "Cafes"⟩).2.2.2 rfl
  exact ⟨h.1, h.2.2.2 false⟩

/-! Section: C4 -/

/-- C4.  Email extraction returns the first email-pattern candidate, in
order of occurrence (the scan of `findallEmails` is leftmost to rightmost),
that passes the placeholder filter, and the empty string ("absent") when no
candidate passes; concretely, with a denylisted first candidate the second
one is returned. -/
theorem c4_first_passing_candidate (body : String) :
    (scanEmailsInText body =
      (((findallEmails body).filter (fun e => !is_placeholder_email e)).head?.getD "")) ∧
    scanEmailsInText "reach info@example.com or Bob@shop.net now" = "Bob@shop.net" ∧
    scanEmailsInText "write info@example.com today" = "" := by
  exact ⟨emailLoop_eq_filter (findallEmails body), by decide, by decide⟩

/-! Section: C5 -/

/-- C5, counterexample.  Claim: owner-name extraction scans only the FIRST
keyword-containing segment and is absent when that segment has no
two-capitalized-word match.  Here the first keyword segment
(`"The owner is great"`) has no name pattern, yet the code continues and
returns `"Jane Smith"` from the second keyword segment, while the
spec-described extraction returns the empty string. -/
theorem c5_counterexample :
    specOwnerExtract "The owner is great. Our founder is Jane Smith" = "" ∧
    (ownerPhoneInText "The owner is great. Our founder is Jane Smith").1 =
      "Jane Smith" ∧
    (ownerPhoneInText "The owner is great. Our founder is Jane Smith").1 ≠
      specOwnerExtract "The owner is great. Our founder is Jane Smith" := by
  exact ⟨by decide, by decide, by decide⟩

/-- C5, amended.  Owner-name extraction splits the text on `'.'` and
returns the first two-capitalized-word match found among the
keyword-containing segments, scanning them in order and skipping keyword
segments without a name pattern; it is absent only when no keyword segment
contains a name pattern.  The spec's concrete example still holds. -/
theorem c5_owner_extraction (body : String) :
    ((ownerPhoneInText body).1 =
      (((ownerSegments body).filterMap
          (fun s => if hasOwnerKeyword s then searchName s else none)).head?.getD "")) ∧
    (ownerPhoneInText "Our founder, Jane Smith, started the company...").1 =
      "Jane Smith" := by
  constructor
  · have h := ownerLoop_eq_filterMap
      ((searchPhone (collapseWs (stripTags body))).getD "") (ownerSegments body)
    exact congrArg Prod.fst h
  · decide

/-! Section: C6 -/

/-- C6, counterexample.  Claim: phone extraction prefers an explicit `tel:`
hyperlink target over a freeform text match.  The code strips all HTML tags
(including any `tel:` href) before matching: for this input, which contains
both a `tel:` target and a freeform phone, the result is the freeform
match, not the `tel:` target. -/
theorem c6_counterexample :
    containsSubS "tel:8045551234"
        "<a href=tel:8045551234>call us</a> or 333-444-5555 now" = true ∧
    (ownerPhoneInText
        "<a href=tel:8045551234>call us</a> or 333-444-5555 now").2 =
      "333-444-5555" ∧
    (ownerPhoneInText
        "<a href=tel:8045551234>call us</a> or 333-444-5555 now").2 ≠
      "8045551234" ∧
    (ownerPhoneInText
        "<a href=tel:8045551234>call us</a> or 333-444-5555 now").2 ≠
      "tel:8045551234" ∧
    (ownerPhoneInText
        "<a href=tel:8045551234>call us</a> or 333-444-5555 now").2 ≠
      "+18045551234" := by
  exact ⟨by decide, by decide, by decide, by decide, by decide⟩

/-- C6, amended.  Phone extraction never sees hyperlink targets: the raw
HTML is tag-stripped (each `<...>` span, including any `tel:` href, is
replaced by a space) and whitespace-collapsed, and the extracted phone is
always the first freeform North-American pattern match in that cleaned
text, independent of the owner-name branch taken. -/
theorem c6_phone_from_stripped_text (body : String) :
    (ownerPhoneInText body).2 =
      (searchPhone (collapseWs (stripTags body))).getD "" := by
  have h := ownerLoop_eq_filterMap
    ((searchPhone (collapseWs (stripTags body))).getD "") (ownerSegments body)
  exact congrArg Prod.snd h

/-! Section: C7 -/

/-- C7.  Phone normalization strips non-digits; with exactly 10 digits the
result is `"+1"` plus the digits, with 11 digits starting in `'1'` it is
`"+1"` plus the last 10 digits, and with any other digit count the input is
returned unchanged; the three spec examples normalize to the same value. -/
theorem c7_normalize_phone (raw : String) :
    ((raw.data.filter Char.isDigit).length = 10 →
      normalize_phone_for_sms raw =
        "+1" ++ (⟨raw.data.filter Char.isDigit⟩ : String)) ∧
    ((raw.data.filter Char.isDigit).length = 11 →
      (raw.data.filter Char.isDigit).head? = some '1' →
      normalize_phone_for_sms raw =
        "+1" ++ (⟨(raw.data.filter Char.isDigit).drop 1⟩ : String)) ∧
    ((raw.data.filter Char.isDigit).length ≠ 10 →
      ¬((raw.data.filter Char.isDigit).length = 11 ∧
        (raw.data.filter Char.isDigit).head? = some '1') →
      normalize_phone_for_sms raw = raw) ∧
    (normalize_phone_for_sms "804-555-1234" = normalize_phone_for_sms "(804) 555-1234" ∧
     normalize_phone_for_sms "(804) 555-1234" = normalize_phone_for_sms "8045551234" ∧
     normalize_phone_for_sms "804-555-1234" = "+18045551234") := by
  refine ⟨?_, ?_, ?_, by decide, by decide, by decide⟩
  · intro h10
    by_cases hraw : raw = ""
    · rw [hraw] at h10; exact absurd h10 (by decide)
    · simp only [normalize_phone_for_sms]
      rw [if_neg hraw, if_pos h10]
  · intro h11 hhead
    by_cases hraw : raw = ""
    · rw [hraw] at h11; exact absurd h11 (by decide)
    · simp only [normalize_phone_for_sms]
      rw [if_neg hraw, if_neg (by rw [h11]; decide), if_pos ⟨h11, hhead⟩]
      cases hd : raw.data.filter Char.isDigit with
      | nil => rw [hd] at h11; exact absurd h11 (by decide)
      | cons c t =>
        rw [hd] at hhead
        have hc : c = '1' := by simpa using hhead
        rw [hc]
        rfl
  · intro hn10 hn11
    by_cases hraw : raw = ""
    · rw [hraw]; rfl
    · simp only [normalize_phone_for_sms]
      rw [if_neg hraw, if_neg hn10, if_neg hn11]

/-- C7 witness: the first branch applied at the dashed spec input. -/
theorem c7_witness : normalize_phone_for_sms "804-555-1234" = "+18045551234" := by
  have h := (c7_normalize_phone "804-555-1234").1 (by decide)
  exact h.trans (by decide)

/-! Section: C8 -/

/-- C8.  The placeholder filter rejects exactly the emails whose lowercase
form is in `AVOID_EMAILS` or contains one of `BAD_EMAIL_SUBSTRINGS`; a
rejected candidate is skipped by the extraction loop (treated as absent);
`info@example.com` is rejected and `realowner@acmeplumbing.com` accepted. -/
theorem c8_placeholder_filter :
    (∀ (e : String) (cands : List String), is_placeholder_email e = true →
      emailLoop (e :: cands) = emailLoop cands) ∧
    (∀ e : String, is_placeholder_email e = true ↔
      (lowerS e ∈ AVOID_EMAILS ∨
        ∃ b ∈ BAD_EMAIL_SUBSTRINGS, containsSubS b (lowerS e) = true)) ∧
    is_placeholder_email "info@example.com" = true ∧
    is_placeholder_email "realowner@acmeplumbing.com" = false := by
  refine ⟨?_, ?_, by decide, by decide⟩
  · intro e cands hp
    simp only [emailLoop]
    by_cases h1 : AVOID_EMAILS.contains (lowerS e) = true
    · rw [if_pos h1]
    · rw [if_neg h1]
      have h2 :
          (BAD_EMAIL_SUBSTRINGS.any fun b => containsSubS b (lowerS e)) = true := by
        rw [is_placeholder_email] at hp
        cases hA : AVOID_EMAILS.contains (lowerS e) with
        | true => exact absurd hA h1
        | false => rw [hA, Bool.false_or] at hp; exact hp
      rw [if_pos h2]
  · intro e
    rw [is_placeholder_email, Bool.or_eq_true, List.any_eq_true]
    exact or_congr List.elem_iff Iff.rfl

/-- C8 witness: the denylisted `info@example.com` is skipped by the loop,
so a list holding only it yields no email. -/
theorem c8_witness : emailLoop ["info@example.com"] = "" := by
  have h := c8_placeholder_filter.1 "info@example.com" [] (by decide)
  exact h.trans rfl

/-! Section: C9 -/

/-- C9.  The fetch-and-extract functions are total on their oracle model
(no exception escapes): an empty URL returns immediately with empty results
and no log entry; any fetch exception yields empty results and one error
log entry. -/
theorem c9_fetch_errors_handled (fetch : String → Except String String)
    (url : String) :
    (url = "" →
      find_email_on_website fetch url = ("", []) ∧
      find_owner_name_and_phone fetch url = (("", ""), [])) ∧
    (url ≠ "" → ∀ exc, fetch url = .error exc →
      find_email_on_website fetch url =
        ("", ["Error scanning " ++ url ++ " for email: " ++ exc]) ∧
      find_owner_name_and_phone fetch url =
        (("", ""), ["Error parsing " ++ url ++ " for owner/phone: " ++ exc])) := by
  constructor
  · intro h
    rw [find_email_on_website, find_owner_name_and_phone, if_pos h, if_pos h]
    exact ⟨rfl, rfl⟩
  · intro hne exc herr
    rw [find_email_on_website, find_owner_name_and_phone, if_neg hne, if_neg hne,
      herr]
    exact ⟨rfl, rfl⟩

/-- C9 witness: a concrete always-raising oracle is recovered from. -/
theorem c9_witness :
    find_email_on_website (fun _ => Except.error "boom") "http://x" =
      ("", ["Error scanning http://x for email: boom"]) ∧
    find_owner_name_and_phone (fun _ => Except.error "boom") "http://x" =
      (("", ""), ["Error parsing http://x for owner/phone: boom"]) := by
  have h := (c9_fetch_errors_handled (fun _ => Except.error "boom") "http://x").2
    (by decide) "boom" rfl
  exact h

/-! Section: C10 -/

/-- C10.  A record uploaded without an extracted email gets a synthesized
payload email — the business name with spaces removed, lowercased, plus
`"@placeholder.com"` — is routed to list 5, and its step neither consults
nor extends the `seen_emails` dedup set (the upload happens whatever the
set contains, and the set after the step equals the set before). -/
theorem c10_synthesized_placeholder_email
    (fetchE fetchP : String → Except String String)
    (bizs : List Biz) (seen : List String) (t : StepTrace)
    (ht : t ∈ runTrace fetchE fetchP bizs seen)
    (he : t.contact.email = "") :
    t.upload = some (add_to_brevo t.contact false) ∧
    (add_to_brevo t.contact false).email =
      lowerS (removeSpacesS t.contact.name) ++ "@placeholder.com" ∧
    (add_to_brevo t.contact false).listIds = [5] ∧
    t.seenAfter = t.seenBefore := by
  have h := runTrace_mem fetchE fetchP bizs seen t ht
  exact ⟨(h.2.2.2 he).1, rfl, rfl, (h.2.2.2 he).2⟩

/-- C10 witness: the no-email listing `cxB3` (fetch fails) is uploaded with
the synthesized address and the seen set is untouched. -/
theorem c10_witness :
    ((runTrace cxFetch cxFetch [cxB3] ["other@x.com"]).headD
        ⟨cxB3, contactOf cxFetch cxFetch cxB3, [], [], none⟩).upload =
      some (add_to_brevo
        ((runTrace cxFetch cxFetch [cxB3] ["other@x.com"]).headD
          ⟨cxB3, contactOf cxFetch cxFetch cxB3, [], [], none⟩).contact false) ∧
    ((runTrace cxFetch cxFetch [cxB3] ["other@x.com"]).headD
        ⟨cxB3, contactOf cxFetch cxFetch cxB3, [], [], none⟩).seenAfter =
      ((runTrace cxFetch cxFetch [cxB3] ["other@x.com"]).headD
        ⟨cxB3, contactOf cxFetch cxFetch cxB3, [], [], none⟩).seenBefore := by
  have h := c10_synthesized_placeholder_email cxFetch cxFetch [cxB3] ["other@x.com"]
    ((runTrace cxFetch cxFetch [cxB3] ["other@x.com"]).headD
      ⟨cxB3, contactOf cxFetch cxFetch cxB3, [], [], none⟩)
    (by decide) (by decide)
  exact ⟨h.1, h.2.2.2⟩

end RichmondLeadScraper
